import Mathlib

/-!
Verification of the authentication and summarization routers of the
AI-Powered Text Summarization Platform.

The source of authority is `src/app/routers/auth.py` and
`src/app/routers/summarize.py`.  Collaborators that live outside those two
files (the SQLAlchemy-backed credential store, the passlib bcrypt password
hasher, the JWT token codec in `app/core/security.py`, the pydantic response
schemas, and the OpenAI summarizer in `app/core/llm.py`) are modelled from
the specification, as marked on each definition.
-/

namespace AuthSvc

/-- Modelled from the spec: the passlib bcrypt hash string.  A salted one-way
digest is idealized as a record pairing the embedded salt with a digest that
determines the plaintext exactly (spec 4.1: `verify` recomputes using the
embedded salt and compares; a mismatch is false "with overwhelming
probability", idealized here as always false).  One-wayness and timing are
not modelled. -/
structure HashVal where
  salt : Nat
  digest : String
deriving DecidableEq, Repr

/-- Modelled from the spec: `hash(plaintext) -> hash_string` (spec 4.1); the
fresh random salt drawn inside passlib is passed explicitly as an oracle
argument. -/
def hashPassword (plaintext : String) (salt : Nat) : HashVal :=
  ⟨salt, plaintext⟩

/-- Modelled from the spec: `verify(plaintext, hash_string) -> bool`
(spec 4.1): recompute with the salt embedded in the hash and compare. -/
def verifyPassword (plaintext : String) (h : HashVal) : Bool :=
  h.digest == plaintext

/-- The JWT payload dictionary: `{"sub": ..., "user_id": ...}` built in
`login` (auth.py line 62).  Either key may be absent in a foreign token,
hence the `Option` fields. -/
structure Claims where
  sub : Option String
  user_id : Option Nat
deriving DecidableEq, Repr

/-- Modelled from the spec: the symmetric signature over the claims and the
expiry, keyed by the process-wide secret (spec 4.2).  An ideal MAC: the
signature is the full signed content together with the key. -/
structure Sig where
  key : Nat
  signedClaims : Claims
  signedExp : Nat
deriving DecidableEq, Repr

def signClaims (secret : Nat) (c : Claims) (e : Nat) : Sig :=
  ⟨secret, c, e⟩

/-- Modelled from the spec: a signed self-contained bearer token:
claims, expiry timestamp, signature (spec 3, "Bearer Token"). -/
structure Token where
  claims : Claims
  expiry : Nat
  sig : Sig
deriving DecidableEq, Repr

/-- Modelled from the spec: `create_access_token` in `app/core/security.py`
(not under src/): serialize the claims plus an expiry `now + TTL` and sign
with the process-wide secret (spec 4.2 `issue`). -/
def create_access_token (secret now ttl : Nat) (c : Claims) : Token :=
  ⟨c, now + ttl, signClaims secret c (now + ttl)⟩

/-- Modelled from the spec: `decode_access_token` / `validate` in
`app/core/security.py` (not under src/): return the decoded claims iff the
signature verifies against the secret and the current time is before the
expiry (spec 4.2, spec 3 invariant). -/
def validateToken (secret now : Nat) (t : Token) : Option Claims :=
  if t.sig = signClaims secret t.claims t.expiry ∧ now < t.expiry then
    some t.claims
  else
    none

/-- The persisted User row (`app.models.User`, modelled from the spec data
model: id assigned at creation, name, unique email, password hash). -/
structure User where
  id : Nat
  name : String
  email : String
  hashed_password : HashVal
deriving DecidableEq, Repr

/-- The public identity representation `{id, name, email}` serialized by
`UserResponse` / `UserMeResponse` (modelled from the spec: the hash is never
serialized outward). -/
structure PublicUser where
  id : Nat
  name : String
  email : String
deriving DecidableEq, Repr

def toPublic (u : User) : PublicUser :=
  ⟨u.id, u.name, u.email⟩

/-- Modelled from the spec: the relational credential store, as a list of
rows in insertion order plus the autoincrement counter for the next id. -/
structure DB where
  users : List User
  nextId : Nat
deriving DecidableEq, Repr

/-- `db.query(User).filter(User.email == email).first()` -/
def find_by_email (db : DB) (e : String) : Option User :=
  db.users.find? (fun u => u.email == e)

/-- `db.query(User).filter(User.id == user_id).first()` -/
def find_by_id (db : DB) (i : Nat) : Option User :=
  db.users.find? (fun u => u.id == i)

/-- An `HTTPException(status_code=..., detail=...)` surfaced to the client. -/
structure HTTPError where
  status : Nat
  detail : String
deriving DecidableEq, Repr

deriving instance DecidableEq for Except

def duplicateEmail : HTTPError := ⟨400, "Email already registered."⟩
def invalidCredentials : HTTPError := ⟨401, "Invalid credentials"⟩
def missingAuthorization : HTTPError := ⟨401, "Authorization header missing"⟩
def malformedAuthorization : HTTPError := ⟨401, "Invalid authorization format"⟩
def invalidOrExpiredToken : HTTPError := ⟨401, "Invalid or expired token"⟩
def userNotFound : HTTPError := ⟨401, "User not found"⟩

/-- `register` (auth.py lines 33-50): check-then-insert.  The fresh bcrypt
salt is an explicit oracle argument.  Returns the response (public fields or
error) together with the resulting store state. -/
def register (db : DB) (name email password : String) (salt : Nat) :
    Except HTTPError PublicUser × DB :=
  match find_by_email db email with
  | some _ => (.error duplicateEmail, db)
  | none =>
    let u : User := ⟨db.nextId, name, email, hashPassword password salt⟩
    (.ok (toPublic u), ⟨db.users ++ [u], db.nextId + 1⟩)

/-- The body of a successful login response:
`{"access_token": ..., "token_type": "bearer"}` (auth.py lines 68-71). -/
structure TokenOut where
  access_token : Token
  token_type : String
deriving DecidableEq, Repr

/-- `login` (auth.py lines 53-71): look up by email, verify the password,
issue a bearer token carrying `sub` = email and `user_id` = id.  The token
clock and TTL of the modelled codec are explicit arguments. -/
def login (db : DB) (email password : String) (secret now ttl : Nat) :
    Except HTTPError TokenOut :=
  match find_by_email db email with
  | none => .error invalidCredentials
  | some u =>
    if verifyPassword password u.hashed_password then
      .ok ⟨create_access_token secret now ttl ⟨some u.email, some u.id⟩, "bearer"⟩
    else
      .error invalidCredentials

/-- The characters before and after the first space of a character list; the
whole list and an empty remainder when no space occurs. -/
def breakAtSpace : List Char → List Char × List Char
  | [] => ([], [])
  | c :: cs =>
    if c = ' ' then ([], cs)
    else
      let p := breakAtSpace cs
      (c :: p.1, p.2)

/-- Python `authorization.partition(" ")`, keeping the first component and
the remainder after the first space (the separator itself dropped; both the
no-separator case and a trailing separator give an empty remainder, exactly
as in Python). -/
def partitionHeader (s : String) : String × String :=
  let p := breakAtSpace s.data
  (⟨p.1⟩, ⟨p.2⟩)

/-- Python `scheme.lower()` (the header scheme is ASCII, where Python's
`str.lower` agrees with per-character basic-latin lowering). -/
def pyLower (s : String) : String :=
  ⟨s.data.map Char.toLower⟩

/-- Python `str.isspace`, the exact character set `str.strip()` removes:
U+0009–U+000D, U+001C–U+0020, U+0085 (next line), U+00A0 (no-break space),
U+1680 (ogham space mark), U+2000–U+200A (typographic spaces), U+2028–U+2029
(line and paragraph separators), U+202F, U+205F and U+3000. -/
def pyIsSpace (c : Char) : Bool :=
  let n := c.toNat
  (9 ≤ n && n ≤ 13) || (28 ≤ n && n ≤ 32) || n = 133 || n = 160 ||
  n = 5760 || (8192 ≤ n && n ≤ 8202) || n = 8232 || n = 8233 ||
  n = 8239 || n = 8287 || n = 12288

/-- Drop the leading whitespace of a character list. -/
def dropLeadingSpace : List Char → List Char
  | [] => []
  | c :: cs => if pyIsSpace c then dropLeadingSpace cs else c :: cs

/-- Python `text.strip()`: remove leading and trailing whitespace. -/
def pyStrip (s : String) : String :=
  ⟨(dropLeadingSpace (dropLeadingSpace s.data).reverse).reverse⟩

/-- `get_current_user` (auth.py lines 74-92).  `decode` stands for
`decode_access_token` applied to the token text (the serialization of token
structures to strings lives in `app/core/security.py`, outside src/, so it
is abstracted as a function argument).  Python truthiness: `if not
authorization` fires on both `None` and the empty string. -/
def get_current_user (decode : String → Option Claims)
    (authorization : Option String) (db : DB) : Except HTTPError PublicUser :=
  match authorization with
  | none => .error missingAuthorization
  | some a =>
    if a = "" then .error missingAuthorization
    else
      let p := partitionHeader a
      if pyLower p.1 ≠ "bearer" ∨ p.2 = "" then .error malformedAuthorization
      else
        match decode p.2 with
        | none => .error invalidOrExpiredToken
        | some payload =>
          match payload.user_id with
          | none => .error invalidOrExpiredToken
          | some uid =>
            match find_by_id db uid with
            | none => .error userNotFound
            | some u => .ok (toPublic u)

/-- The `UserUpdate` request schema of PUT /me (modelled from the spec:
optional name, optional email; only the fields read in auth.py). -/
structure UserUpdate where
  name : Option String
  email : Option String
deriving DecidableEq, Repr

/-- `update_current_user` (auth.py lines 95-127): the same four
authentication steps as the read path, then the partial update.  A raised
`HTTPException` aborts before `db.commit()`, so every error path returns the
store unchanged; the commit replaces the caller's row. -/
def update_current_user (decode : String → Option Claims)
    (authorization : Option String) (db : DB) (upd : UserUpdate) :
    Except HTTPError PublicUser × DB :=
  match authorization with
  | none => (.error missingAuthorization, db)
  | some a =>
    if a = "" then (.error missingAuthorization, db)
    else
      let p := partitionHeader a
      if pyLower p.1 ≠ "bearer" ∨ p.2 = "" then (.error malformedAuthorization, db)
      else
        match decode p.2 with
        | none => (.error invalidOrExpiredToken, db)
        | some payload =>
          match payload.user_id with
          | none => (.error invalidOrExpiredToken, db)
          | some uid =>
            match find_by_id db uid with
            | none => (.error userNotFound, db)
            | some u =>
              let u1 : User := match upd.name with
                | some n => ⟨u.id, n, u.email, u.hashed_password⟩
                | none => u
              let persist : User → Except HTTPError PublicUser × DB := fun u2 =>
                (.ok (toPublic u2),
                 ⟨db.users.map (fun v => if v.id = uid then u2 else v), db.nextId⟩)
              match upd.email with
              | none => persist u1
              | some e =>
                match find_by_email db e with
                | some ex =>
                  if ex.id ≠ uid then (.error duplicateEmail, db)
                  else persist ⟨u1.id, u1.name, e, u1.hashed_password⟩
                | none => persist ⟨u1.id, u1.name, e, u1.hashed_password⟩

/-- The body of a successful summarization response (summarize.py 30-33). -/
structure SummaryOut where
  original_text : String
  summary : String
deriving DecidableEq, Repr

/-- `get_summary` (summarize.py lines 21-33): strip the text, reject a
stripped text shorter than 5 characters with a 422, otherwise summarize the
stripped text.  `summarizer` stands for `summarize_with_openai`
(`app/core/llm.py`, outside src/), abstracted as a function argument. -/
def get_summary (summarizer : String → String) (text : String) :
    Except HTTPError SummaryOut :=
  let cleaned := pyStrip text
  if cleaned.length < 5 then
    .error ⟨422, "Text must be at least 5 characters"⟩
  else
    .ok ⟨cleaned, summarizer cleaned⟩

/-! ## Helper lemmas -/

theorem find?_append_of_none {α : Type} {p : α → Bool} {l l2 : List α}
    (h : l.find? p = none) : (l ++ l2).find? p = l2.find? p := by
  rw [List.find?_append, h]; rfl

theorem map_self_of_fix {α : Type} {f : α → α} :
    ∀ {l : List α}, (∀ x ∈ l, f x = x) → l.map f = l := by
  intro l
  induction l with
  | nil => intro _; rfl
  | cons a t ih =>
    intro h
    simp only [List.map_cons, List.cons.injEq]
    exact ⟨h a (List.mem_cons_self a t), ih fun x hx => h x (List.mem_cons_of_mem a hx)⟩

theorem get_current_user_auth_ok (decode : String → Option Claims)
    (a : String) (db : DB) (hne : a ≠ "")
    (hscheme : pyLower (partitionHeader a).1 = "bearer")
    (htok : (partitionHeader a).2 ≠ "") :
    get_current_user decode (some a) db =
      (match decode (partitionHeader a).2 with
       | none => .error invalidOrExpiredToken
       | some payload =>
         match payload.user_id with
         | none => .error invalidOrExpiredToken
         | some uid =>
           match find_by_id db uid with
           | none => .error userNotFound
           | some u => .ok (toPublic u)) := by
  simp only [get_current_user]
  rw [if_neg hne, if_neg (by push_neg; exact ⟨hscheme, htok⟩)]

theorem update_current_user_auth_ok (decode : String → Option Claims)
    (a : String) (db : DB) (upd : UserUpdate) (hne : a ≠ "")
    (hscheme : pyLower (partitionHeader a).1 = "bearer")
    (htok : (partitionHeader a).2 ≠ "") :
    update_current_user decode (some a) db upd =
      (match decode (partitionHeader a).2 with
       | none => (.error invalidOrExpiredToken, db)
       | some payload =>
         match payload.user_id with
         | none => (.error invalidOrExpiredToken, db)
         | some uid =>
           match find_by_id db uid with
           | none => (.error userNotFound, db)
           | some u =>
             let u1 : User := match upd.name with
               | some n => ⟨u.id, n, u.email, u.hashed_password⟩
               | none => u
             let persist : User → Except HTTPError PublicUser × DB := fun u2 =>
               (.ok (toPublic u2),
                ⟨db.users.map (fun v => if v.id = uid then u2 else v), db.nextId⟩)
             match upd.email with
             | none => persist u1
             | some e =>
               match find_by_email db e with
               | some ex =>
                 if ex.id ≠ uid then (.error duplicateEmail, db)
                 else persist ⟨u1.id, u1.name, e, u1.hashed_password⟩
               | none => persist ⟨u1.id, u1.name, e, u1.hashed_password⟩) := by
  simp only [update_current_user]
  rw [if_neg hne, if_neg (by push_neg; exact ⟨hscheme, htok⟩)]

/-! ## Claims -/

/-- C1: for a valid input and a store holding no identity for that email,
Register then Login with the same email and password succeeds: Login returns
the token with token_type "bearer", and the token's decoded claims carry
`sub` equal to the email and `user_id` equal to the id of the identity
created by Register. -/
theorem register_then_login (db : DB) (name email password : String)
    (salt secret now ttl : Nat)
    (hfresh : find_by_email db email = none) (httl : 0 < ttl) :
    ∃ pub db1 tok,
      register db name email password salt = (.ok pub, db1) ∧
      login db1 email password secret now ttl = .ok ⟨tok, "bearer"⟩ ∧
      validateToken secret now tok = some ⟨some email, some pub.id⟩ := by
  refine ⟨⟨db.nextId, name, email⟩,
    ⟨db.users ++ [⟨db.nextId, name, email, hashPassword password salt⟩], db.nextId + 1⟩,
    create_access_token secret now ttl ⟨some email, some db.nextId⟩, ?_, ?_, ?_⟩
  · simp [register, hfresh, toPublic]
  · have hnone : db.users.find? (fun u => u.email == email) = none := hfresh
    have hfind : find_by_email
        ⟨db.users ++ [⟨db.nextId, name, email, hashPassword password salt⟩], db.nextId + 1⟩
        email = some ⟨db.nextId, name, email, hashPassword password salt⟩ := by
      show (db.users ++ [_]).find? _ = _
      rw [find?_append_of_none hnone]
      simp [List.find?]
    simp only [login]
    rw [hfind]
    simp [verifyPassword, hashPassword]
  · have hlt : now < now + ttl := Nat.lt_add_of_pos_right httl
    simp [validateToken, create_access_token, hlt]

theorem register_then_login_witness :
    ∃ pub db1 tok,
      register ⟨[], 1⟩ "Ann" "a@x.com" "secret123" 7 = (.ok pub, db1) ∧
      login db1 "a@x.com" "secret123" 5 0 30 = .ok ⟨tok, "bearer"⟩ ∧
      validateToken 5 0 tok = some ⟨some "a@x.com", some pub.id⟩ :=
  register_then_login ⟨[], 1⟩ "Ann" "a@x.com" "secret123" 7 5 0 30 (by decide) (by decide)

/-- C2: after a successful registration, registering the same email again
fails with DuplicateEmail (status 400) and leaves the store — in particular
the identity record created by the first registration, with its id, name,
email and password hash — unchanged. -/
theorem register_duplicate (db : DB) (n e p : String) (s : Nat)
    (n2 p2 : String) (s2 : Nat) (pub : PublicUser) (db1 : DB)
    (h : register db n e p s = (.ok pub, db1)) :
    register db1 n2 e p2 s2 = (.error duplicateEmail, db1) ∧
    duplicateEmail.status = 400 ∧
    find_by_email db1 e = some ⟨db.nextId, n, e, hashPassword p s⟩ := by
  have hnone : find_by_email db e = none := by
    cases hfe : find_by_email db e with
    | none => rfl
    | some u => simp [register, hfe] at h
  have hdb1 : db1 = ⟨db.users ++ [⟨db.nextId, n, e, hashPassword p s⟩], db.nextId + 1⟩ := by
    simp [register, hnone] at h
    exact h.2.symm
  have hnone2 : db.users.find? (fun u => u.email == e) = none := hnone
  have hfind : find_by_email db1 e = some ⟨db.nextId, n, e, hashPassword p s⟩ := by
    subst hdb1
    show (db.users ++ [_]).find? _ = _
    rw [find?_append_of_none hnone2]
    simp [List.find?]
  exact ⟨by simp [register, hfind], rfl, hfind⟩

theorem register_duplicate_witness :
    register (register ⟨[], 1⟩ "Ann" "a@x.com" "secret123" 7).2 "Eve" "a@x.com" "pwd12345" 9 =
      (.error duplicateEmail, (register ⟨[], 1⟩ "Ann" "a@x.com" "secret123" 7).2) ∧
    duplicateEmail.status = 400 ∧
    find_by_email (register ⟨[], 1⟩ "Ann" "a@x.com" "secret123" 7).2 "a@x.com" =
      some ⟨1, "Ann", "a@x.com", hashPassword "secret123" 7⟩ :=
  register_duplicate ⟨[], 1⟩ "Ann" "a@x.com" "secret123" 7 "Eve" "pwd12345" 9
    ⟨1, "Ann", "a@x.com"⟩ (register ⟨[], 1⟩ "Ann" "a@x.com" "secret123" 7).2 rfl

/-- C3: a Login request fails — necessarily with InvalidCredentials — iff
no identity exists for the email or password verification against the
stored hash fails; both failure causes yield the one same error value
(status 401, detail "Invalid credentials"), so the two causes are
indistinguishable to the client. -/
theorem login_error_characterization (db : DB) (e p : String)
    (secret now ttl : Nat) :
    (login db e p secret now ttl = .error invalidCredentials ↔
      find_by_email db e = none ∨
      ∃ u, find_by_email db e = some u ∧
        verifyPassword p u.hashed_password = false) ∧
    (∀ err, login db e p secret now ttl = .error err →
      err = invalidCredentials ∧ err.status = 401 ∧
      err.detail = "Invalid credentials") := by
  constructor
  · cases hfe : find_by_email db e with
    | none => simp [login, hfe]
    | some u =>
      cases hv : verifyPassword p u.hashed_password with
      | true => simp [login, hfe, hv]
      | false => simp [login, hfe, hv]
  · intro err herr
    cases hfe : find_by_email db e with
    | none =>
      simp [login, hfe] at herr
      subst herr
      exact ⟨rfl, rfl, rfl⟩
    | some u =>
      cases hv : verifyPassword p u.hashed_password with
      | true => simp [login, hfe, hv] at herr
      | false =>
        simp [login, hfe, hv] at herr
        subst herr
        exact ⟨rfl, rfl, rfl⟩

theorem login_error_characterization_witness :
    login ⟨[], 1⟩ "ghost@x.com" "pw" 5 0 30 = .error invalidCredentials :=
  (login_error_characterization ⟨[], 1⟩ "ghost@x.com" "pw" 5 0 30).1.mpr (Or.inl rfl)

/-- C7: a token validates (returning the decoded claims) iff its signature
verifies against the process-wide secret and the current time is before its
expiry; validation returns nothing other than the token's own claims; a
token issued by `create_access_token` validates immediately after issuance
and fails validation once its TTL has elapsed — validity is a pure function
of secret, time and token, with no other state involved. -/
theorem token_validity (secret now t0 ttl n2 : Nat) (c : Claims) (t : Token)
    (httl : 0 < ttl) (helapsed : t0 + ttl ≤ n2) :
    (validateToken secret now t = some t.claims ↔
      t.sig = signClaims secret t.claims t.expiry ∧ now < t.expiry) ∧
    (validateToken secret now t = none ∨ validateToken secret now t = some t.claims) ∧
    validateToken secret t0 (create_access_token secret t0 ttl c) = some c ∧
    validateToken secret n2 (create_access_token secret t0 ttl c) = none := by
  refine ⟨?_, ?_, ?_, ?_⟩
  · rw [validateToken]
    split
    · next h => simp [h]
    · next h => simp [h]
  · rw [validateToken]
    split
    · exact Or.inr rfl
    · exact Or.inl rfl
  · have hlt : t0 < t0 + ttl := Nat.lt_add_of_pos_right httl
    simp [validateToken, create_access_token, hlt]
  · have hge : ¬ n2 < t0 + ttl := Nat.not_lt.mpr helapsed
    simp [validateToken, create_access_token, hge]

theorem token_validity_witness :
    validateToken 5 0 (create_access_token 5 0 30 ⟨some "a@x.com", some 1⟩) =
      some ⟨some "a@x.com", some 1⟩ ∧
    validateToken 5 30 (create_access_token 5 0 30 ⟨some "a@x.com", some 1⟩) = none :=
  ⟨(token_validity 5 0 0 30 30 ⟨some "a@x.com", some 1⟩
      ⟨⟨none, none⟩, 0, ⟨0, ⟨none, none⟩, 0⟩⟩ (by decide) (by decide)).2.2.1,
   (token_validity 5 0 0 30 30 ⟨some "a@x.com", some 1⟩
      ⟨⟨none, none⟩, 0, ⟨0, ⟨none, none⟩, 0⟩⟩ (by decide) (by decide)).2.2.2⟩

/-- C8: verifying a plaintext against its own hash succeeds; verifying
against the hash of a different plaintext fails (the "overwhelming
probability" of the spec, idealized as certainty in the model); hashing the
same plaintext with two different (fresh random) salts produces different
hash values. -/
theorem password_hash_roundtrip (p q : String) (s s2 : Nat)
    (hpq : p ≠ q) (hss : s ≠ s2) :
    verifyPassword p (hashPassword p s) = true ∧
    verifyPassword p (hashPassword q s) = false ∧
    hashPassword p s ≠ hashPassword p s2 := by
  refine ⟨?_, ?_, ?_⟩
  · simp [verifyPassword, hashPassword]
  · simp only [verifyPassword, hashPassword]
    exact beq_eq_false_iff_ne.mpr (Ne.symm hpq)
  · intro h
    exact hss (congrArg HashVal.salt h)

theorem password_hash_roundtrip_witness :
    verifyPassword "secret123" (hashPassword "secret123" 0) = true ∧
    verifyPassword "secret123" (hashPassword "wrong" 0) = false ∧
    hashPassword "secret123" 0 ≠ hashPassword "secret123" 1 :=
  password_hash_roundtrip "secret123" "wrong" 0 1 (by decide) (by decide)

/-- C10: for a request text meeting the schema's 5-character minimum, the
endpoint strips leading and trailing whitespace; if the stripped text has
fewer than 5 characters the request fails with a 422, and otherwise the
response's original_text is the stripped text and the summary is computed
from the stripped text. -/
theorem get_summary_strips (summarizer : String → String) (text : String)
    ( _hschema : 5 ≤ text.length) :
    ((pyStrip text).length < 5 →
      get_summary summarizer text =
        .error ⟨422, "Text must be at least 5 characters"⟩) ∧
    (5 ≤ (pyStrip text).length →
      get_summary summarizer text =
        .ok ⟨pyStrip text, summarizer (pyStrip text)⟩) := by
  constructor
  · intro h
    simp [get_summary, h]
  · intro h
    simp [get_summary, Nat.not_lt.mpr h]

theorem get_summary_strips_witness :
    get_summary (fun s => s) "  ab " =
      .error ⟨422, "Text must be at least 5 characters"⟩ ∧
    get_summary (fun s => s) " hello " =
      .ok ⟨pyStrip " hello ", (fun s => s) (pyStrip " hello ")⟩ :=
  ⟨(get_summary_strips (fun s => s) "  ab " (by decide)).1 (by decide),
   (get_summary_strips (fun s => s) " hello " (by decide)).2 (by decide)⟩

/-- C9: a GET /me or PUT /me request whose token decodes successfully but
whose claims carry no user_id field is rejected with the same
InvalidOrExpiredToken outcome (status 401, detail "Invalid or expired
token") as a malformed or expired token. -/
theorem missing_user_id_claim_rejected (decode : String → Option Claims)
    (db : DB) (upd : UserUpdate) (a : String) (c : Claims)
    (hne : a ≠ "")
    (hscheme : pyLower (partitionHeader a).1 = "bearer")
    (htok : (partitionHeader a).2 ≠ "")
    (hdec : decode (partitionHeader a).2 = some c)
    (huid : c.user_id = none) :
    get_current_user decode (some a) db = .error invalidOrExpiredToken ∧
    update_current_user decode (some a) db upd = (.error invalidOrExpiredToken, db) ∧
    invalidOrExpiredToken.status = 401 ∧
    invalidOrExpiredToken.detail = "Invalid or expired token" := by
  obtain ⟨cs, cu⟩ := c
  simp only [Claims.user_id] at huid
  subst huid
  refine ⟨?_, ?_, rfl, rfl⟩
  · rw [get_current_user_auth_ok decode a db hne hscheme htok, hdec]
  · rw [update_current_user_auth_ok decode a db upd hne hscheme htok, hdec]

theorem missing_user_id_claim_rejected_witness :
    get_current_user (fun _ => some ⟨some "a@x.com", none⟩) (some "Bearer tok") ⟨[], 1⟩ =
      .error invalidOrExpiredToken ∧
    update_current_user (fun _ => some ⟨some "a@x.com", none⟩) (some "Bearer tok") ⟨[], 1⟩
      ⟨some "Eve", none⟩ = (.error invalidOrExpiredToken, ⟨[], 1⟩) ∧
    invalidOrExpiredToken.status = 401 ∧
    invalidOrExpiredToken.detail = "Invalid or expired token" :=
  missing_user_id_claim_rejected (fun _ => some ⟨some "a@x.com", none⟩) ⟨[], 1⟩
    ⟨some "Eve", none⟩ "Bearer tok" ⟨some "a@x.com", none⟩
    (by decide) (by decide) (by decide) rfl rfl

/-- C4 counterexample: with the header present but empty (`authorization =
some ""`), the scheme is not the case-insensitive literal "bearer", yet the
code answers MissingAuthorization, not MalformedAuthorization as the claim
requires for a present header with a non-bearer scheme. -/
theorem empty_header_counterexample :
    some "" ≠ (none : Option String) ∧
    pyLower (partitionHeader "").1 ≠ "bearer" ∧
    get_current_user (fun _ => none) (some "") ⟨[], 1⟩ =
      .error missingAuthorization ∧
    missingAuthorization ≠ malformedAuthorization :=
  ⟨by decide, by decide, rfl, by decide⟩

/-- C4 (amended): GET /me checks its authorization data in exactly this
order — an absent or empty header gives MissingAuthorization; a non-empty
header whose scheme is not the case-insensitive literal "bearer" or whose
token segment is empty gives MalformedAuthorization; a token failing
validation gives InvalidOrExpiredToken; a valid token whose user_id matches
no stored identity gives UserNotFound; and every error of the endpoint has
status 401. -/
theorem auth_header_checks (decode : String → Option Claims)
    (authorization : Option String) (db : DB) :
    ((authorization = none ∨ authorization = some "") →
      get_current_user decode authorization db = .error missingAuthorization) ∧
    (∀ a, authorization = some a → a ≠ "" →
      (pyLower (partitionHeader a).1 ≠ "bearer" ∨ (partitionHeader a).2 = "") →
      get_current_user decode authorization db = .error malformedAuthorization) ∧
    (∀ a, authorization = some a → a ≠ "" →
      pyLower (partitionHeader a).1 = "bearer" → (partitionHeader a).2 ≠ "" →
      decode (partitionHeader a).2 = none →
      get_current_user decode authorization db = .error invalidOrExpiredToken) ∧
    (∀ a c uid, authorization = some a → a ≠ "" →
      pyLower (partitionHeader a).1 = "bearer" → (partitionHeader a).2 ≠ "" →
      decode (partitionHeader a).2 = some c → c.user_id = some uid →
      find_by_id db uid = none →
      get_current_user decode authorization db = .error userNotFound) ∧
    (∀ err, get_current_user decode authorization db = .error err →
      err.status = 401) := by
  refine ⟨?_, ?_, ?_, ?_, ?_⟩
  · rintro (rfl | rfl) <;> rfl
  · rintro a rfl hne hbad
    simp only [get_current_user]
    rw [if_neg hne, if_pos hbad]
  · rintro a rfl hne hscheme htok hdec
    rw [get_current_user_auth_ok decode a db hne hscheme htok, hdec]
  · rintro a c uid rfl hne hscheme htok hdec huid hfind
    obtain ⟨cs, cu⟩ := c
    simp only [Claims.user_id] at huid
    subst huid
    rw [get_current_user_auth_ok decode a db hne hscheme htok, hdec]
    show (match find_by_id db uid with
          | none => Except.error userNotFound
          | some u => Except.ok (toPublic u)) = Except.error userNotFound
    rw [hfind]
  · intro err herr
    simp only [get_current_user] at herr
    split at herr
    · cases herr; rfl
    · split at herr
      · cases herr; rfl
      · split at herr
        · cases herr; rfl
        · split at herr
          · cases herr; rfl
          · split at herr
            · cases herr; rfl
            · split at herr
              · cases herr; rfl
              · cases herr

theorem auth_header_checks_witness :
    get_current_user (fun _ => none) (some "Token xyz") ⟨[], 1⟩ =
      .error malformedAuthorization :=
  (auth_header_checks (fun _ => none) (some "Token xyz") ⟨[], 1⟩).2.1
    "Token xyz" rfl (by decide) (Or.inl (by decide))

/-- C5: in an authenticated PUT /me — if the provided email is already held
by an identity other than the caller's, the request fails with
DuplicateEmail (status 400) and the store is unchanged; updating to the
caller's own current email succeeds as a no-op; and when name and/or email
are provided with no collision, both changes are applied to the caller's
row before persisting and the refreshed public identity is returned. -/
theorem update_email_rules (decode : String → Option Claims)
    (db : DB) (a : String) (c : Claims) (uid : Nat) (u : User)
    (hne : a ≠ "")
    (hscheme : pyLower (partitionHeader a).1 = "bearer")
    (htok : (partitionHeader a).2 ≠ "")
    (hdec : decode (partitionHeader a).2 = some c)
    (huid : c.user_id = some uid)
    (hfind : find_by_id db uid = some u) :
    (∀ e ex upd, upd.email = some e → find_by_email db e = some ex →
      ex.id ≠ uid →
      update_current_user decode (some a) db upd = (.error duplicateEmail, db) ∧
      duplicateEmail.status = 400) ∧
    (find_by_email db u.email = some u → (∀ v ∈ db.users, v.id = uid → v = u) →
      update_current_user decode (some a) db ⟨none, some u.email⟩ =
        (.ok (toPublic u), db)) ∧
    (∀ upd, (∀ e ex, upd.email = some e → find_by_email db e = some ex →
        ex.id = uid) →
      update_current_user decode (some a) db upd =
        (.ok (toPublic ⟨u.id, upd.name.getD u.name, (upd.email).getD u.email,
            u.hashed_password⟩),
         ⟨db.users.map (fun v => if v.id = uid then
            ⟨u.id, upd.name.getD u.name, (upd.email).getD u.email,
              u.hashed_password⟩ else v), db.nextId⟩)) := by
  obtain ⟨cs, cu⟩ := c
  simp only [Claims.user_id] at huid
  subst huid
  have hbase : ∀ upd, update_current_user decode (some a) db upd =
      (let u1 : User := match upd.name with
        | some n => ⟨u.id, n, u.email, u.hashed_password⟩
        | none => u
       let persist : User → Except HTTPError PublicUser × DB := fun u2 =>
         (.ok (toPublic u2),
          ⟨db.users.map (fun v => if v.id = uid then u2 else v), db.nextId⟩)
       match upd.email with
       | none => persist u1
       | some e =>
         match find_by_email db e with
         | some ex =>
           if ex.id ≠ uid then (.error duplicateEmail, db)
           else persist ⟨u1.id, u1.name, e, u1.hashed_password⟩
         | none => persist ⟨u1.id, u1.name, e, u1.hashed_password⟩) := by
    intro upd
    rw [update_current_user_auth_ok decode a db upd hne hscheme htok, hdec]
    show (match find_by_id db uid with
          | none => (Except.error userNotFound, db)
          | some u => _) = _
    rw [hfind]
  have happly : ∀ upd e, upd.email = some e →
      (∀ ex, find_by_email db e = some ex → ex.id = uid) →
      update_current_user decode (some a) db upd =
        (.ok (toPublic ⟨u.id, upd.name.getD u.name, e, u.hashed_password⟩),
         ⟨db.users.map (fun v => if v.id = uid then
            ⟨u.id, upd.name.getD u.name, e, u.hashed_password⟩ else v),
          db.nextId⟩) := by
    intro upd e he hok
    rw [hbase upd]
    obtain ⟨un, ue⟩ := upd
    simp only [UserUpdate.email] at he
    subst he
    cases hfe : find_by_email db e with
    | none =>
      cases un <;> simp [UserUpdate.name, hfe]
    | some ex =>
      have hid : ex.id = uid := hok ex hfe
      cases un <;> simp [UserUpdate.name, hfe, hid]
  refine ⟨?_, ?_, ?_⟩
  · intro e ex upd he hex hid
    refine ⟨?_, rfl⟩
    rw [hbase upd]
    obtain ⟨un, ue⟩ := upd
    simp only [UserUpdate.email] at he
    subst he
    simp [hex, hid]
  · intro hown hids
    have huid2 : u.id = uid := by
      have := List.find?_some hfind
      simpa using this
    rw [happly ⟨none, some u.email⟩ u.email rfl
      (fun ex hex => by rw [hown] at hex; cases hex; exact huid2)]
    have hmap : db.users.map (fun v => if v.id = uid then
        (⟨u.id, u.name, u.email, u.hashed_password⟩ : User) else v) = db.users := by
      apply map_self_of_fix
      intro v hv
      by_cases hveq : v.id = uid
      · rw [if_pos hveq, (hids v hv hveq)]
      · rw [if_neg hveq]
    simp only [Option.getD] at hmap ⊢
    rw [hmap]
  · intro upd hok
    cases hue : upd.email with
    | some e =>
      exact happly upd e hue (fun ex hex => hok e ex hue hex)
    | none =>
      rw [hbase upd]
      obtain ⟨un, ue⟩ := upd
      simp only [UserUpdate.email] at hue
      subst hue
      cases un <;> simp [UserUpdate.name, UserUpdate.email]

theorem update_email_rules_witness :
    update_current_user (fun _ => some ⟨some "a@x.com", some 1⟩) (some "Bearer t")
      ⟨[⟨1, "Ann", "a@x.com", ⟨7, "s"⟩⟩, ⟨2, "Bob", "b@x.com", ⟨8, "t"⟩⟩], 3⟩
      ⟨none, some "b@x.com"⟩ =
      (.error duplicateEmail,
       ⟨[⟨1, "Ann", "a@x.com", ⟨7, "s"⟩⟩, ⟨2, "Bob", "b@x.com", ⟨8, "t"⟩⟩], 3⟩) ∧
    duplicateEmail.status = 400 :=
  ((update_email_rules (fun _ => some ⟨some "a@x.com", some 1⟩)
      ⟨[⟨1, "Ann", "a@x.com", ⟨7, "s"⟩⟩, ⟨2, "Bob", "b@x.com", ⟨8, "t"⟩⟩], 3⟩
      "Bearer t" ⟨some "a@x.com", some 1⟩ 1 ⟨1, "Ann", "a@x.com", ⟨7, "s"⟩⟩
      (by decide) (by decide) (by decide) rfl rfl rfl).1
    "b@x.com" ⟨2, "Bob", "b@x.com", ⟨8, "t"⟩⟩ ⟨none, some "b@x.com"⟩ rfl rfl
    (by decide))

/-- C6: every endpoint that returns an identity (POST /register, GET /me,
PUT /me) answers with the public projection {id, name, email} of a stored
identity; the projection carries exactly those three fields and is
independent of the stored password hash, so the hash is never included in
any response. -/
theorem public_fields_only :
    (∀ (u : User) (h2 : HashVal),
      toPublic ⟨u.id, u.name, u.email, h2⟩ = toPublic u) ∧
    (∀ u : User, toPublic u = ⟨u.id, u.name, u.email⟩) ∧
    (∀ (db : DB) (n e p : String) (s : Nat) pub db1,
      register db n e p s = (.ok pub, db1) →
      ∃ u, u ∈ db1.users ∧ pub = toPublic u) ∧
    (∀ (decode : String → Option Claims) auth (db : DB) pub,
      get_current_user decode auth db = .ok pub →
      ∃ u, u ∈ db.users ∧ pub = toPublic u) ∧
    (∀ (decode : String → Option Claims) auth (db : DB) upd pub db1,
      update_current_user decode auth db upd = (.ok pub, db1) →
      ∃ u, u ∈ db1.users ∧ pub = toPublic u) := by
  refine ⟨fun u h2 => rfl, fun u => rfl, ?_, ?_, ?_⟩
  · intro db n e p s pub db1 h
    cases hfe : find_by_email db e with
    | some ex => simp [register, hfe] at h
    | none =>
      simp only [register, hfe] at h
      obtain ⟨h1, h2⟩ := Prod.mk.injEq .. ▸ h
      injection h1 with h1
      refine ⟨⟨db.nextId, n, e, hashPassword p s⟩, ?_, h1.symm⟩
      rw [← h2]
      exact List.mem_append_right _ (List.mem_singleton.mpr rfl)
  · intro decode auth db pub h
    simp only [get_current_user] at h
    split at h
    · simp at h
    · split at h
      · simp at h
      · split at h
        · simp at h
        · split at h
          · simp at h
          · split at h
            · simp at h
            · split at h
              · simp at h
              · next u hfid =>
                  simp only [Except.ok.injEq] at h
                  exact ⟨u, List.mem_of_find?_eq_some hfid, h.symm⟩
  · intro decode auth db upd pub db1 h
    have hgen : ∀ (t : User) (uid : Nat) (u : User),
        find_by_id db uid = some u →
        ((Except.ok (toPublic t) : Except HTTPError PublicUser),
          (⟨db.users.map (fun v => if v.id = uid then t else v),
            db.nextId⟩ : DB)) = (Except.ok pub, db1) →
        ∃ u2, u2 ∈ db1.users ∧ pub = toPublic u2 := by
      intro t uid u hfid heq
      rw [Prod.mk.injEq] at heq
      obtain ⟨hl, hr⟩ := heq
      injection hl with hl
      refine ⟨t, ?_, hl.symm⟩
      rw [← hr]
      have huid : u.id = uid := by
        have := List.find?_some hfid
        simpa using this
      show t ∈ db.users.map (fun v => if v.id = uid then t else v)
      exact List.mem_map.mpr
        ⟨u, List.mem_of_find?_eq_some hfid, by simp [huid]⟩
    simp only [update_current_user] at h
    split at h
    · simp at h
    · split at h
      · simp at h
      · split at h
        · simp at h
        · split at h
          · simp at h
          · split at h
            · simp at h
            · split at h
              · simp at h
              · next u hfid =>
                  split at h
                  · exact hgen _ _ _ hfid h
                  · split at h
                    · split at h
                      · simp at h
                      · exact hgen _ _ _ hfid h
                    · exact hgen _ _ _ hfid h

theorem public_fields_only_witness :
    ∃ u, u ∈ (register ⟨[], 1⟩ "Ann" "a@x.com" "secret123" 7).2.users ∧
      (⟨1, "Ann", "a@x.com"⟩ : PublicUser) = toPublic u :=
  public_fields_only.2.2.1 ⟨[], 1⟩ "Ann" "a@x.com" "secret123" 7
    ⟨1, "Ann", "a@x.com"⟩ (register ⟨[], 1⟩ "Ann" "a@x.com" "secret123" 7).2 rfl

end AuthSvc
